import Mathlib

/-!
# Verification of the ValutaTrade Hub core logic

Shallow embedding of the rate-resolution, portfolio-valuation, currency-registry
and wallet-mutation logic of the repository (files
`src/valutatrade_hub/core/currencies.py` and
`src/valutatrade_hub/cli/interface.py`), with theorems checking the
natural-language specification against it.

Numbers (balances, rates, market caps) are embedded as rationals; Python dicts
become association lists looked up by first match.
-/

namespace ValutaTrade

/-- First-match lookup in an association list, the embedding of Python
`d[k]` / `k in d` on dicts (keys are unique in a dict, so first match is
the only match). -/
def lookupKey {β : Type} (key : String) : List (String × β) → Option β
  | [] => none
  | kv :: rest => if kv.1 = key then some kv.2 else lookupKey key rest

/-- Python `str.upper()` on ASCII text: uppercase every character. -/
def pyUpper (s : String) : String :=
  ⟨s.data.map Char.toUpper⟩

/-- Python `str.strip()`: drop whitespace from both ends. -/
def pyStrip (s : String) : String :=
  ⟨((s.data.dropWhile Char.isWhitespace).reverse.dropWhile
      Char.isWhitespace).reverse⟩

/-! ## Currency registry (`core/currencies.py`) -/

/-- Variant tag of a currency: `FiatCurrency` carries the issuing country,
`CryptoCurrency` carries the algorithm and market cap. -/
inductive CurrencyKind : Type
  | fiat (issuing_country : String)
  | crypto (algorithm : String) (market_cap : ℚ)
  deriving Repr, DecidableEq

/-- A constructed currency (`Currency` and its two subclasses). -/
structure Currency : Type where
  name : String
  code : String
  kind : CurrencyKind
  deriving Repr, DecidableEq

/-- Failures of the currency module: `ValueError` at construction
(the spec's `InvalidCurrency`) and `CurrencyNotFoundError` at lookup. -/
inductive CurrencyError : Type
  | invalidCurrency (msg : String)
  | currencyNotFound (code : String)
  deriving Repr, DecidableEq

/-- Python `str.isupper`: at least one cased character and every cased
character uppercase (currency codes are ASCII, so cased = alphabetic). -/
def isupperPy (s : String) : Bool :=
  s.data.any (fun c => c.isAlpha) && s.data.all (fun c => !c.isAlpha || c.isUpper)

/-- `Currency._validate_code`: a string, length 2..5, uppercase, no spaces. -/
def validate_code (code : String) : Except CurrencyError Unit :=
  if ¬ (2 ≤ code.length ∧ code.length ≤ 5) then
    .error (.invalidCurrency "code length must be 2..5")
  else if ¬ isupperPy code then
    .error (.invalidCurrency "code must be uppercase")
  else if (' ' : Char) ∈ code.data then
    .error (.invalidCurrency "code must not contain spaces")
  else
    .ok ()

/-- `Currency._validate_name`: non-empty after trimming. -/
def validate_name (name : String) : Except CurrencyError Unit :=
  if pyStrip name = "" then .error (.invalidCurrency "name must be non-empty")
  else .ok ()

/-- `Currency.__init__`: validates the code, then the name. -/
def Currency.init (name code : String) (kind : CurrencyKind) :
    Except CurrencyError Currency := do
  validate_code code
  validate_name name
  pure ⟨name, code, kind⟩

/-- `FiatCurrency(name, code, issuing_country)`. -/
def FiatCurrency (name code issuing_country : String) :
    Except CurrencyError Currency :=
  Currency.init name code (.fiat issuing_country)

/-- `CryptoCurrency(name, code, algorithm, market_cap)`. -/
def CryptoCurrency (name code algorithm : String) (market_cap : ℚ) :
    Except CurrencyError Currency :=
  Currency.init name code (.crypto algorithm market_cap)

/-- The static currency catalog built by `_initialize_currencies`
(5 fiat + 4 crypto), keyed by code. -/
def currencyRegistry : List (String × Currency) :=
  [ ("USD", ⟨"US Dollar", "USD", .fiat "United States"⟩),
    ("EUR", ⟨"Euro", "EUR", .fiat "Eurozone"⟩),
    ("RUB", ⟨"Russian Ruble", "RUB", .fiat "Russia"⟩),
    ("GBP", ⟨"British Pound", "GBP", .fiat "United Kingdom"⟩),
    ("JPY", ⟨"Japanese Yen", "JPY", .fiat "Japan"⟩),
    ("BTC", ⟨"Bitcoin", "BTC", .crypto "SHA-256" 1120000000000⟩),
    ("ETH", ⟨"Ethereum", "ETH", .crypto "Ethash" 350000000000⟩),
    ("LTC", ⟨"Litecoin", "LTC", .crypto "Scrypt" 5800000000⟩),
    ("ADA", ⟨"Cardano", "ADA", .crypto "Ouroboros" 12000000000⟩) ]

/-- `get_currency(code)`: uppercase + strip, then registry lookup;
`CurrencyNotFoundError` when absent. -/
def get_currency (code : String) : Except CurrencyError Currency :=
  let norm := pyStrip (pyUpper code)
  match lookupKey norm currencyRegistry with
  | some c => .ok c
  | none => .error (.currencyNotFound norm)

/-! ## Display formatting (`get_display_info`) -/

/-- Two-digit zero padding (fraction digits, exponent digits). -/
def pad2 (n : ℕ) : String :=
  if n < 10 then "0" ++ toString n else toString n

/-- Insert thousands separators into a reversed digit list (the `,` of the
Python format spec `,.2f`). -/
def commaGroupRev : List Char → List Char
  | a :: b :: c :: d :: rest => a :: b :: c :: ',' :: commaGroupRev (d :: rest)
  | l => l

/-- String assembly of `f"{x:,.2f}"` from the hundredths value `n`: sign,
integer part grouped in threes with commas, dot, 2 fraction digits. -/
def groupedAssemble (n : ℤ) : String :=
  (if n < 0 then "-" else "") ++
    String.mk ((commaGroupRev (toString (n.natAbs / 100)).data.reverse).reverse)
    ++ "." ++ pad2 (n.natAbs % 100)

/-- Python `f"{x:,.2f}"`: round to 2 fraction digits, group the integer part
in threes with commas. -/
def groupedFormat2 (q : ℚ) : String :=
  groupedAssemble (round (q * 100))

/-- String assembly of `f"{x:.2e}"` from the rounded hundredths of the
mantissa `n ∈ [100, 1000]` and the exponent `e`: a rounding carry of
`n = 1000` bumps the exponent; then digit, dot, 2 fraction digits, `e`,
exponent sign and at least two exponent digits. -/
def sciAssemble (n e : ℤ) : String :=
  let p := if 1000 ≤ n then ((100 : ℤ), e + 1) else (n, e)
  let m := p.1.natAbs
  toString (m / 100) ++ "." ++ pad2 (m % 100) ++ "e"
    ++ (if p.2 < 0 then "-" else "+") ++ pad2 p.2.natAbs

/-- Python `f"{x:.2e}"` for a non-negative value (market caps are
non-negative): mantissa in `[1, 10)` with 2 rounded fraction digits, then
`e`, the exponent sign and at least two exponent digits. -/
def sciFormat2 (q : ℚ) : String :=
  if q ≤ 0 then "0.00e+00"
  else sciAssemble (round (q / (10 : ℚ) ^ Int.log 10 q * 100)) (Int.log 10 q)

/-- `get_display_info`, dispatched on the variant: fiat and crypto render
different templates, crypto picks scientific notation above 1e9. -/
def get_display_info (c : Currency) : String :=
  match c.kind with
  | .fiat issuing =>
      "[FIAT] " ++ c.code ++ " — " ++ c.name ++ " (Issuing: " ++ issuing ++ ")"
  | .crypto algo mcap =>
      let mcapDisplay :=
        if mcap > 1000000000 then sciFormat2 mcap else groupedFormat2 mcap
      "[CRYPTO] " ++ c.code ++ " — " ++ c.name ++ " (Algo: " ++ algo
        ++ ", MCAP: " ++ mcapDisplay ++ ")"

/-! ## Rate table and the resolver of `get_rate_command` -/

/-- One value of the loaded rates mapping: `{'rate': ..., 'updated_at': ...}`. -/
structure RateEntry : Type where
  rate : ℚ
  updated_at : String
  deriving Repr, DecidableEq

/-- The loaded rates mapping: pair keys such as `"EUR_USD"` and possibly the
metadata keys `"source"` / `"last_refresh"`. -/
abbrev RateTable := List (String × RateEntry)

/-- The two metadata keys every consumer skips. -/
def metadataKeys : List String := ["source", "last_refresh"]

/-- How a resolved rate was derived. -/
inductive Provenance : Type
  | direct
  | invertedReverse
  | bridged
  deriving Repr, DecidableEq

/-- Outcome of the resolution logic of `get_rate_command`: a resolved rate
with an optional reverse quote; a silent return (the reverse key is present
with rate exactly 0 and the function returns printing nothing, because the
`return` sits outside the zero test); or the unavailable message together
with the printed list of known pair keys. -/
inductive RateResult : Type
  | found (rate : ℚ) (prov : Provenance) (reverse : Option ℚ)
  | silent
  | unavailable (knownKeys : List String)
  deriving Repr, DecidableEq

/-- The diagnostic list printed with the unavailable message:
`[k for k in rates.keys() if k not in ['source', 'last_refresh']]`. -/
def knownPairKeys (rates : RateTable) : List String :=
  (rates.map Prod.fst).filter (fun k => decide (k ∉ metadataKeys))

/-- Step 3 of `get_rate_command`: the USD bridge; on any failed condition the
unavailable message. -/
def bridgeStep (rates : RateTable) (from_currency to_currency : String) :
    RateResult :=
  if from_currency ≠ "USD" ∧ to_currency ≠ "USD" then
    match lookupKey ("USD_" ++ to_currency) rates,
          lookupKey (from_currency ++ "_USD") rates with
    | some usd_to_target, some source_to_usd =>
        if usd_to_target.rate ≠ 0 ∧ source_to_usd.rate ≠ 0 then
          let calculated := source_to_usd.rate * usd_to_target.rate
          .found calculated .bridged
            (some (if calculated ≠ 0 then 1 / calculated else 0))
        else .unavailable (knownPairKeys rates)
    | _, _ => .unavailable (knownPairKeys rates)
  else .unavailable (knownPairKeys rates)

/-- Step 2 of `get_rate_command`: the reverse key. On a zero stored rate the
code returns with no output at all. -/
def reverseStep (rates : RateTable) (from_currency to_currency : String) :
    RateResult :=
  let reverse_rate_key := to_currency ++ "_" ++ from_currency
  match lookupKey reverse_rate_key rates with
  | some rate_data =>
      if reverse_rate_key ∈ metadataKeys then
        bridgeStep rates from_currency to_currency
      else if rate_data.rate ≠ 0 then
        .found (1 / rate_data.rate) .invertedReverse (some rate_data.rate)
      else .silent
  | none => bridgeStep rates from_currency to_currency

/-- The rate-resolution logic of `get_rate_command`, after both codes were
validated against the registry and normalized: direct key, reverse key,
USD bridge, unavailable. -/
def resolveRate (rates : RateTable) (from_currency to_currency : String) :
    RateResult :=
  let rate_key := from_currency ++ "_" ++ to_currency
  match lookupKey rate_key rates with
  | some rate_data =>
      if rate_key ∈ metadataKeys then
        reverseStep rates from_currency to_currency
      else
        .found rate_data.rate .direct
          (if rate_data.rate = 0 then none else some (1 / rate_data.rate))
  | none => reverseStep rates from_currency to_currency

/-! ## Portfolio valuation (`show_portfolio_command`) -/

/-- The conversion of the loaded rates into `exchange_rates`: drop the
metadata keys, keep `value['rate']` (the same loop appears in
`show_portfolio_command`, `buy_command` and `sell_command`). -/
def exchangeRatesOf (rates : RateTable) : List (String × ℚ) :=
  (rates.filter (fun kv => decide (kv.1 ∉ metadataKeys))).map
    (fun kv => (kv.1, kv.2.rate))

/-- One printed line of the portfolio report. -/
inductive WalletLine : Type
  | valued (code : String) (balance value : ℚ)
  | notFound (code : String) (balance : ℚ)
  deriving Repr, DecidableEq

/-- The body of the wallet loop of `show_portfolio_command` for one wallet:
the base currency prices 1:1, anything else by direct lookup of
`"{currency_code}_{base}"`, else the "rate not found" line. -/
def valueWallet (exchange_rates : List (String × ℚ)) (base code : String)
    (balance : ℚ) : WalletLine :=
  if code = base then .valued code balance balance
  else
    match lookupKey (code ++ "_" ++ base) exchange_rates with
    | some rate => .valued code balance (balance * rate)
    | none => .notFound code balance

/-- What a line adds to `total_value`: its value in base, or nothing for a
"rate not found" line. -/
def lineContribution : WalletLine → ℚ
  | .valued _ _ v => v
  | .notFound _ _ => 0

/-- The value in base of a line that actually priced, `none` for a
"rate not found" line. -/
def resolvedValue : WalletLine → Option ℚ
  | .valued _ _ v => some v
  | .notFound _ _ => none

/-- The printed per-wallet breakdown, in wallet insertion order. -/
def portfolioBreakdown (wallets : List (String × ℚ)) (base : String)
    (rates : RateTable) : List WalletLine :=
  wallets.map (fun w => valueWallet (exchangeRatesOf rates) base w.1 w.2)

/-- `total_value` exactly as the loop accumulates it: starts at 0, adds
`value_in_base` in the two branches that price the wallet, adds nothing on
"rate not found". -/
def portfolioTotal (wallets : List (String × ℚ)) (base : String)
    (rates : RateTable) : ℚ :=
  wallets.foldl
    (fun acc w =>
      acc + lineContribution (valueWallet (exchangeRatesOf rates) base w.1 w.2))
    0

/-- The report of `show_portfolio_command`: an empty portfolio is reported
distinctly, otherwise breakdown plus total. -/
inductive PortfolioReport : Type
  | empty
  | report (lines : List WalletLine) (total : ℚ)
  deriving Repr, DecidableEq

/-- The valuation part of `show_portfolio_command` (after login and
portfolio lookup). -/
def show_portfolio (wallets : List (String × ℚ)) (base : String)
    (rates : RateTable) : PortfolioReport :=
  if wallets.isEmpty then .empty
  else .report (portfolioBreakdown wallets base rates)
    (portfolioTotal wallets base rates)

/-! ## Buy / sell commands (`buy_command`, `sell_command`)

The `Wallet` and `Portfolio` classes live in `valutatrade_hub/core/models.py`,
which the repository snapshot does not include; their operations are modelled
from the spec where noted. The command flow itself (validation order, which
paths write the portfolios store) is from `cli/interface.py`. -/

/-- A stored portfolio: owner id and the currency-code → balance mapping. -/
structure Portfolio : Type where
  user_id : ℕ
  wallets : List (String × ℚ)
  deriving Repr, DecidableEq

/-- Typed failures of the buy/sell command flow. -/
inductive CmdError : Type
  | currencyNotFound (code : String)
  | amountNotANumber
  | notLoggedIn
  | nonPositiveAmount
  | portfolioNotFound
  | noWallet (code : String)
  | invalidAmount
  | insufficientFunds
  deriving Repr, DecidableEq

/-- Modelled from the spec: `Wallet.deposit` of `valutatrade_hub/core/models.py`
(not under `src/`) — fails with `InvalidAmount` if amount ≤ 0, otherwise
`balance += amount`, no upper bound. -/
def Wallet.deposit (balance amount : ℚ) : Except CmdError ℚ :=
  if amount ≤ 0 then .error .invalidAmount
  else .ok (balance + amount)

/-- Modelled from the spec: `Wallet.withdraw` of `valutatrade_hub/core/models.py`
(not under `src/`) — fails with `InvalidAmount` if amount ≤ 0, with
`InsufficientFunds` if amount > balance; the balance never goes negative. -/
def Wallet.withdraw (balance amount : ℚ) : Except CmdError ℚ :=
  if amount ≤ 0 then .error .invalidAmount
  else if balance < amount then .error .insufficientFunds
  else .ok (balance - amount)

/-- `find_portfolio_by_user_id`: first portfolio with the given owner. -/
def find_portfolio_by_user_id (portfolios : List Portfolio) (uid : ℕ) :
    Option Portfolio :=
  portfolios.find? (fun p => p.user_id = uid)

/-- Write a wallet balance into a portfolio's mapping: replace the first
entry for the code, or append a fresh wallet (the effect of
`get_or_create_wallet` followed by the mutation, modelled from the spec's
`getOrCreate` since `models.py` is not under `src/`). -/
def setWallet : List (String × ℚ) → String → ℚ → List (String × ℚ)
  | [], code, b => [(code, b)]
  | kv :: rest, code, b =>
      if kv.1 = code then (code, b) :: rest else kv :: setWallet rest code b

/-- The save loop of `buy_command` / `sell_command`: replace the first
portfolio with the matching `user_id`, leave the rest untouched. -/
def replacePortfolio : List Portfolio → ℕ → Portfolio → List Portfolio
  | [], _, _ => []
  | p :: ps, uid, newP =>
      if p.user_id = uid then newP :: ps else p :: replacePortfolio ps uid newP

/-- Result of a successful buy/sell: normalized code, old balance, new
balance, and the estimated USD cost/revenue (0 when no `{code}_USD` rate). -/
structure TradeResult : Type where
  currency : String
  old_balance : ℚ
  new_balance : ℚ
  estimated : ℚ
  deriving Repr, DecidableEq

/-- `buy_command`: the returned list is the portfolios store as persisted —
every failure path returns before `save_portfolios`, so it hands back the
loaded store unchanged. `amount` is the outcome of `float(amount_str)`. -/
def buy_command (portfolios : List Portfolio) (logged_in : Bool) (uid : ℕ)
    (currency_arg : String) (amount_arg : Option ℚ) (rates : RateTable) :
    List Portfolio × Except CmdError TradeResult :=
  match get_currency currency_arg with
  | .error _ =>
      (portfolios, .error (.currencyNotFound (pyStrip (pyUpper currency_arg))))
  | .ok _ =>
  match amount_arg with
  | none => (portfolios, .error .amountNotANumber)
  | some amount =>
  if ¬ logged_in then (portfolios, .error .notLoggedIn)
  else
  let currency := pyStrip (pyUpper currency_arg)
  if amount ≤ 0 then (portfolios, .error .nonPositiveAmount)
  else
  match find_portfolio_by_user_id portfolios uid with
  | none => (portfolios, .error .portfolioNotFound)
  | some portfolio =>
  let exchange_rates := exchangeRatesOf rates
  let rate := (lookupKey (currency ++ "_USD") exchange_rates).getD 0
  let estimated := if rate > 0 then amount * rate else 0
  let old_balance := (lookupKey currency portfolio.wallets).getD 0
  match Wallet.deposit old_balance amount with
  | .error e => (portfolios, .error e)
  | .ok new_balance =>
      (replacePortfolio portfolios uid
        ⟨portfolio.user_id, setWallet portfolio.wallets currency new_balance⟩,
       .ok ⟨currency, old_balance, new_balance, estimated⟩)

/-- `sell_command`: same shape as `buy_command`, but the wallet must already
exist and the withdrawal may fail with `InsufficientFunds`; every failure
path returns the loaded store unchanged. -/
def sell_command (portfolios : List Portfolio) (logged_in : Bool) (uid : ℕ)
    (currency_arg : String) (amount_arg : Option ℚ) (rates : RateTable) :
    List Portfolio × Except CmdError TradeResult :=
  match get_currency currency_arg with
  | .error _ =>
      (portfolios, .error (.currencyNotFound (pyStrip (pyUpper currency_arg))))
  | .ok _ =>
  match amount_arg with
  | none => (portfolios, .error .amountNotANumber)
  | some amount =>
  if ¬ logged_in then (portfolios, .error .notLoggedIn)
  else
  let currency := pyStrip (pyUpper currency_arg)
  if amount ≤ 0 then (portfolios, .error .nonPositiveAmount)
  else
  match find_portfolio_by_user_id portfolios uid with
  | none => (portfolios, .error .portfolioNotFound)
  | some portfolio =>
  match lookupKey currency portfolio.wallets with
  | none => (portfolios, .error (.noWallet currency))
  | some old_balance =>
  let exchange_rates := exchangeRatesOf rates
  let rate := (lookupKey (currency ++ "_USD") exchange_rates).getD 0
  let estimated := if rate > 0 then amount * rate else 0
  match Wallet.withdraw old_balance amount with
  | .error e => (portfolios, .error e)
  | .ok new_balance =>
      (replacePortfolio portfolios uid
        ⟨portfolio.user_id, setWallet portfolio.wallets currency new_balance⟩,
       .ok ⟨currency, old_balance, new_balance, estimated⟩)

/-! ## Helper lemmas -/

lemma lookupKey_eq_some_mem {β : Type} {k : String} {v : β} :
    ∀ {l : List (String × β)}, lookupKey k l = some v → (k, v) ∈ l := by
  intro l
  induction l with
  | nil => intro h; simp [lookupKey] at h
  | cons kv rest ih =>
      intro h
      by_cases hk : kv.1 = k
      · simp only [lookupKey, if_pos hk, Option.some.injEq] at h
        have : (k, v) = kv := by
          rw [← hk, ← h]
        exact this ▸ List.mem_cons_self kv rest
      · simp only [lookupKey, if_neg hk] at h
        exact List.mem_cons_of_mem _ (ih h)

lemma lookupKey_getD_nonneg {k : String} {l : List (String × ℚ)}
    (h : ∀ kv ∈ l, 0 ≤ kv.2) : 0 ≤ (lookupKey k l).getD 0 := by
  cases hl : lookupKey k l with
  | none => simp
  | some v => simpa using h _ (lookupKey_eq_some_mem hl)

lemma mem_setWallet {code : String} {b : ℚ} {kv : String × ℚ} :
    ∀ {ws : List (String × ℚ)}, kv ∈ setWallet ws code b →
      kv = (code, b) ∨ kv ∈ ws := by
  intro ws
  induction ws with
  | nil => intro h; simp [setWallet] at h; simp [h]
  | cons hd rest ih =>
      intro h
      by_cases hc : hd.1 = code
      · simp only [setWallet, if_pos hc] at h
        rcases List.mem_cons.mp h with h1 | h2
        · exact Or.inl h1
        · exact Or.inr (List.mem_cons_of_mem _ h2)
      · simp only [setWallet, if_neg hc] at h
        rcases List.mem_cons.mp h with h1 | h2
        · exact Or.inr (h1 ▸ List.mem_cons_self hd rest)
        · rcases ih h2 with h3 | h4
          · exact Or.inl h3
          · exact Or.inr (List.mem_cons_of_mem _ h4)

lemma mem_replacePortfolio {uid : ℕ} {newP p : Portfolio} :
    ∀ {ps : List Portfolio}, p ∈ replacePortfolio ps uid newP →
      p = newP ∨ p ∈ ps := by
  intro ps
  induction ps with
  | nil => intro h; simp [replacePortfolio] at h
  | cons hd rest ih =>
      intro h
      by_cases hu : hd.user_id = uid
      · simp only [replacePortfolio, if_pos hu] at h
        rcases List.mem_cons.mp h with h1 | h2
        · exact Or.inl h1
        · exact Or.inr (List.mem_cons_of_mem _ h2)
      · simp only [replacePortfolio, if_neg hu] at h
        rcases List.mem_cons.mp h with h1 | h2
        · exact Or.inr (h1 ▸ List.mem_cons_self hd rest)
        · rcases ih h2 with h3 | h4
          · exact Or.inl h3
          · exact Or.inr (List.mem_cons_of_mem _ h4)

lemma foldl_add_eq_sum_map {α : Type} (f : α → ℚ) :
    ∀ (l : List α) (a : ℚ),
      l.foldl (fun acc w => acc + f w) a = a + (l.map f).sum := by
  intro l
  induction l with
  | nil => intro a; simp
  | cons hd rest ih =>
      intro a
      simp only [List.foldl_cons, List.map_cons, List.sum_cons, ih]
      ring

lemma sum_contribution_eq_sum_resolved :
    ∀ lines : List WalletLine,
      (lines.map lineContribution).sum = (lines.filterMap resolvedValue).sum := by
  intro lines
  induction lines with
  | nil => simp
  | cons hd rest ih =>
      cases hd <;> simp [lineContribution, resolvedValue, ih]

/-! ## Claim theorems -/

/-- C4: whenever the loaded table has the key `"{FROM}_{TO}"` (a genuine pair
key, not one of the two metadata keys, which no pair of registry codes can
form), resolving (FROM, TO) returns that entry's rate with provenance
"direct", together with the reverse quote `1/rate`, the reverse quote being
omitted exactly when the stored rate is 0. -/
theorem direct_step_returns_stored_rate (rates : RateTable)
    (from_currency to_currency : String) (e : RateEntry)
    (hdir : lookupKey (from_currency ++ "_" ++ to_currency) rates = some e)
    (hmeta : from_currency ++ "_" ++ to_currency ∉ metadataKeys) :
    resolveRate rates from_currency to_currency =
      .found e.rate .direct
        (if e.rate = 0 then none else some (1 / e.rate)) := by
  unfold resolveRate
  simp [hdir, hmeta]

/-- Witness for C4: with the spec's table `{"EUR_USD": 1.08}`, resolving
(EUR, USD) yields rate 1.08 = 27/25 with provenance "direct" and reverse
quote 25/27. -/
theorem direct_step_returns_stored_rate_wit :
    resolveRate [("EUR_USD", ⟨27/25, "2024"⟩)] "EUR" "USD" =
      .found (27/25) .direct (some (25/27)) := by
  have h := direct_step_returns_stored_rate [("EUR_USD", ⟨27/25, "2024"⟩)]
    "EUR" "USD" ⟨27/25, "2024"⟩ rfl (by decide)
  rw [h]
  norm_num

/-- C2 (amended): the reverse step applies only when the direct key is absent
and the reverse key `"{TO}_{FROM}"` exists with rate ≠ 0, returning `1/rate`
with provenance "inverted-reverse"; but when the reverse key exists with rate
exactly 0, the command returns silently with no result at all — it neither
proceeds to the USD-bridge step nor signals RateUnavailable (the `return`
sits outside the zero test). -/
theorem reverse_step_zero_rate_silent (rates : RateTable)
    (from_currency to_currency : String) (e : RateEntry)
    (hdir : lookupKey (from_currency ++ "_" ++ to_currency) rates = none)
    (hrev : lookupKey (to_currency ++ "_" ++ from_currency) rates = some e)
    (hmeta : to_currency ++ "_" ++ from_currency ∉ metadataKeys) :
    (e.rate ≠ 0 →
      resolveRate rates from_currency to_currency =
        .found (1 / e.rate) .invertedReverse (some e.rate)) ∧
    (e.rate = 0 →
      resolveRate rates from_currency to_currency = .silent) := by
  unfold resolveRate reverseStep
  constructor
  · intro hz
    simp [hdir, hrev, hmeta, hz]
  · intro hz
    simp [hdir, hrev, hmeta, hz]

/-- Witness for C2: table `{"USD_EUR": 0.9259..., "RUB_JPY": 0}` — resolving
(EUR, USD) inverts the reverse quote, and resolving (JPY, RUB) returns
silently because the stored reverse rate is 0. -/
theorem reverse_step_zero_rate_silent_wit :
    resolveRate [("USD_EUR", ⟨25/27, "2024"⟩)] "EUR" "USD" =
      .found (27/25) .invertedReverse (some (25/27)) ∧
    resolveRate [("RUB_JPY", ⟨0, "2024"⟩)] "JPY" "RUB" = .silent := by
  constructor
  · have h := (reverse_step_zero_rate_silent [("USD_EUR", ⟨25/27, "2024"⟩)]
      "EUR" "USD" ⟨25/27, "2024"⟩ rfl rfl (by decide)).1
      (by norm_num)
    rw [h]
    norm_num
  · exact (reverse_step_zero_rate_silent [("RUB_JPY", ⟨0, "2024"⟩)]
      "JPY" "RUB" ⟨0, "2024"⟩ rfl rfl (by decide)).2 rfl

/-- Counterexample to C2 as stated: in the table
`{"RUB_EUR": 0, "USD_RUB": 90, "EUR_USD": 1.08}` the reverse key for
(EUR, RUB) exists with rate exactly 0 and both USD-bridge quotes are present
and non-zero, yet resolution returns silently — it does not proceed to the
USD-bridge step (which would give 97.2 = 486/5) and does not signal
RateUnavailable. -/
theorem reverse_step_zero_rate_cx :
    resolveRate
        [("RUB_EUR", ⟨0, "2024"⟩), ("USD_RUB", ⟨90, "2024"⟩),
         ("EUR_USD", ⟨27/25, "2024"⟩)] "EUR" "RUB" = .silent ∧
    resolveRate
        [("RUB_EUR", ⟨0, "2024"⟩), ("USD_RUB", ⟨90, "2024"⟩),
         ("EUR_USD", ⟨27/25, "2024"⟩)] "EUR" "RUB" ≠
      .found (486/5) .bridged (some (5/486)) ∧
    resolveRate
        [("RUB_EUR", ⟨0, "2024"⟩), ("USD_RUB", ⟨90, "2024"⟩),
         ("EUR_USD", ⟨27/25, "2024"⟩)] "EUR" "RUB" ≠
      .unavailable ["RUB_EUR", "USD_RUB", "EUR_USD"] := by
  refine ⟨by decide, by decide, by decide⟩

/-- C3 (amended): when neither the key `"{FROM}_{TO}"` nor `"{TO}_{FROM}"`
is present in the table, FROM ≠ USD, TO ≠ USD, and both `"{FROM}_USD"` and
`"USD_{TO}"` exist with non-zero rates, resolution returns
`rate(FROM_USD) * rate(USD_TO)` with provenance "bridged" plus its inverse
as the reverse quote. -/
theorem bridge_step_triangulates (rates : RateTable)
    (from_currency to_currency : String) (usd_to_target source_to_usd : RateEntry)
    (hdir : lookupKey (from_currency ++ "_" ++ to_currency) rates = none)
    (hrev : lookupKey (to_currency ++ "_" ++ from_currency) rates = none)
    (hf : from_currency ≠ "USD") (ht : to_currency ≠ "USD")
    (hu : lookupKey ("USD_" ++ to_currency) rates = some usd_to_target)
    (hs : lookupKey (from_currency ++ "_USD") rates = some source_to_usd)
    (hu0 : usd_to_target.rate ≠ 0) (hs0 : source_to_usd.rate ≠ 0) :
    resolveRate rates from_currency to_currency =
      .found (source_to_usd.rate * usd_to_target.rate) .bridged
        (some (1 / (source_to_usd.rate * usd_to_target.rate))) := by
  have hne : source_to_usd.rate * usd_to_target.rate ≠ 0 := mul_ne_zero hs0 hu0
  unfold resolveRate reverseStep bridgeStep
  simp [hdir, hrev, hf, ht, hu, hs, hu0, hs0, hne]

/-- Witness for C3: the spec's bridge example — given
`{"USD_RUB": 90, "EUR_USD": 1.08}`, resolving (EUR, RUB) yields
97.2 = 486/5 with provenance "bridged" and reverse quote 5/486. -/
theorem bridge_step_triangulates_wit :
    resolveRate [("USD_RUB", ⟨90, "2024"⟩), ("EUR_USD", ⟨27/25, "2024"⟩)]
        "EUR" "RUB" =
      .found (486/5) .bridged (some (5/486)) := by
  have h := bridge_step_triangulates
    [("USD_RUB", ⟨90, "2024"⟩), ("EUR_USD", ⟨27/25, "2024"⟩)] "EUR" "RUB"
    ⟨90, "2024"⟩ ⟨27/25, "2024"⟩ rfl rfl (by decide) (by decide) rfl rfl
    (by norm_num) (by norm_num)
  rw [h]
  norm_num

/-- Counterexample to C3 as stated: in the table
`{"RUB_EUR": 0, "USD_RUB": 90, "EUR_USD": 1.08}` neither `"EUR_RUB"` nor
`"RUB_EUR"` resolves a rate for (EUR, RUB) (the direct key is absent, the
reverse key holds rate 0) and both bridge quotes exist with non-zero rates,
yet the result is the silent return, not the bridged rate 97.2. -/
theorem bridge_step_not_reached_cx :
    lookupKey "EUR_RUB"
        ([("RUB_EUR", ⟨0, "2024"⟩), ("USD_RUB", ⟨90, "2024"⟩),
          ("EUR_USD", ⟨27/25, "2024"⟩)] : RateTable) = none ∧
    lookupKey "RUB_EUR"
        ([("RUB_EUR", ⟨0, "2024"⟩), ("USD_RUB", ⟨90, "2024"⟩),
          ("EUR_USD", ⟨27/25, "2024"⟩)] : RateTable) = some ⟨0, "2024"⟩ ∧
    lookupKey "EUR_USD"
        ([("RUB_EUR", ⟨0, "2024"⟩), ("USD_RUB", ⟨90, "2024"⟩),
          ("EUR_USD", ⟨27/25, "2024"⟩)] : RateTable) = some ⟨27/25, "2024"⟩ ∧
    lookupKey "USD_RUB"
        ([("RUB_EUR", ⟨0, "2024"⟩), ("USD_RUB", ⟨90, "2024"⟩),
          ("EUR_USD", ⟨27/25, "2024"⟩)] : RateTable) = some ⟨90, "2024"⟩ ∧
    resolveRate
        [("RUB_EUR", ⟨0, "2024"⟩), ("USD_RUB", ⟨90, "2024"⟩),
         ("EUR_USD", ⟨27/25, "2024"⟩)] "EUR" "RUB" = .silent ∧
    resolveRate
        [("RUB_EUR", ⟨0, "2024"⟩), ("USD_RUB", ⟨90, "2024"⟩),
         ("EUR_USD", ⟨27/25, "2024"⟩)] "EUR" "RUB" ≠
      .found (486/5) .bridged (some (5/486)) := by
  refine ⟨rfl, rfl, rfl, rfl, by decide, by decide⟩

/-- Counterexample to C1 as stated: with the table
`{"USD_RUB": 90, "EUR_USD": 1.08}` the Rate Resolver resolves (EUR, RUB) to
97.2 = 486/5 by USD-bridge triangulation, yet `show_portfolio_command`
reports the 1-EUR wallet as "rate not found" with contribution 0 rather
than 1 × 97.2 — valuation does not invoke the Rate Resolver. -/
theorem valuation_skips_resolver_cx :
    resolveRate [("USD_RUB", ⟨90, "2024"⟩), ("EUR_USD", ⟨27/25, "2024"⟩)]
        "EUR" "RUB" = .found (486/5) .bridged (some (5/486)) ∧
    portfolioBreakdown [("EUR", 1)] "RUB"
        [("USD_RUB", ⟨90, "2024"⟩), ("EUR_USD", ⟨27/25, "2024"⟩)] =
      [.notFound "EUR" 1] ∧
    portfolioTotal [("EUR", 1)] "RUB"
        [("USD_RUB", ⟨90, "2024"⟩), ("EUR_USD", ⟨27/25, "2024"⟩)] = 0 ∧
    (0 : ℚ) ≠ 1 * (486/5) := by
  refine ⟨?_, by decide, ?_, by norm_num⟩
  · have h1 : lookupKey "EUR_RUB"
        ([("USD_RUB", ⟨90, "2024"⟩), ("EUR_USD", ⟨27/25, "2024"⟩)] :
          RateTable) = none := by simp [lookupKey]
    have h2 : lookupKey "RUB_EUR"
        ([("USD_RUB", ⟨90, "2024"⟩), ("EUR_USD", ⟨27/25, "2024"⟩)] :
          RateTable) = none := by simp [lookupKey]
    have h3 : lookupKey "USD_RUB"
        ([("USD_RUB", ⟨90, "2024"⟩), ("EUR_USD", ⟨27/25, "2024"⟩)] :
          RateTable) = some ⟨90, "2024"⟩ := by simp [lookupKey]
    have h4 : lookupKey "EUR_USD"
        ([("USD_RUB", ⟨90, "2024"⟩), ("EUR_USD", ⟨27/25, "2024"⟩)] :
          RateTable) = some ⟨27/25, "2024"⟩ := by simp [lookupKey]
    unfold resolveRate reverseStep bridgeStep
    simp [h1, h2, h3, h4, metadataKeys]
    norm_num
  · have h5 : lookupKey "EUR_RUB"
        (exchangeRatesOf
          [("USD_RUB", ⟨90, "2024"⟩), ("EUR_USD", ⟨27/25, "2024"⟩)]) =
        none := by simp [exchangeRatesOf, lookupKey, metadataKeys]
    unfold portfolioTotal
    simp [valueWallet, h5, lineContribution]

/-- C1 (amended): for every portfolio wallet whose currency differs from the
base currency, valuation looks up only the direct key
`"{walletCurrency}_{baseCurrency}"` in the metadata-filtered rate table:
when the key is present the wallet's contributed value equals balance times
that stored rate, and otherwise the wallet is reported "rate not found" —
no reverse inversion or USD-bridge triangulation is attempted. -/
theorem valuation_uses_direct_lookup_only (wallets : List (String × ℚ))
    (base : String) (rates : RateTable) (code : String) (bal : ℚ)
    (hmem : (code, bal) ∈ wallets) (hne : code ≠ base) :
    (∀ r : ℚ, lookupKey (code ++ "_" ++ base) (exchangeRatesOf rates) = some r →
      WalletLine.valued code bal (bal * r) ∈
        portfolioBreakdown wallets base rates) ∧
    (lookupKey (code ++ "_" ++ base) (exchangeRatesOf rates) = none →
      WalletLine.notFound code bal ∈ portfolioBreakdown wallets base rates) := by
  have hmap := List.mem_map_of_mem
    (fun w : String × ℚ => valueWallet (exchangeRatesOf rates) base w.1 w.2) hmem
  constructor
  · intro r hr
    have hval : valueWallet (exchangeRatesOf rates) base code bal =
        .valued code bal (bal * r) := by
      unfold valueWallet
      simp [hne, hr]
    rw [← hval]
    exact hmap
  · intro hr
    have hval : valueWallet (exchangeRatesOf rates) base code bal =
        .notFound code bal := by
      unfold valueWallet
      simp [hne, hr]
    rw [← hval]
    exact hmap

/-- Witness for the amended C1: a BTC wallet of 0.01 against base USD with
table `{BTC_USD: 50000}` is priced 0.01 × 50000 = 500 by direct lookup, and
with an empty table the same wallet is reported "rate not found". -/
theorem valuation_uses_direct_lookup_only_wit :
    WalletLine.valued "BTC" (1/100) ((1/100) * 50000) ∈
      portfolioBreakdown [("USD", 100), ("BTC", 1/100)] "USD"
        [("BTC_USD", ⟨50000, "2024"⟩)] ∧
    WalletLine.notFound "BTC" (1/100) ∈
      portfolioBreakdown [("USD", 100), ("BTC", 1/100)] "USD" [] := by
  constructor
  · exact (valuation_uses_direct_lookup_only
      [("USD", 100), ("BTC", 1/100)] "USD" [("BTC_USD", ⟨50000, "2024"⟩)]
      "BTC" (1/100) (by norm_num) (by decide)).1 50000 rfl
  · exact (valuation_uses_direct_lookup_only
      [("USD", 100), ("BTC", 1/100)] "USD" [] "BTC" (1/100)
      (by norm_num) (by decide)).2 rfl

/-- C5: a wallet in the base currency contributes exactly its balance with
no rate lookup; a wallet whose `"{code}_{base}"` rate is absent still
appears in the breakdown as "rate not found"; every wallet produces exactly
one breakdown line (one missing rate never aborts the rest); and the
reported total is the sum of the contributed values of the wallets that did
price. -/
theorem valuation_total_sums_resolved (wallets : List (String × ℚ))
    (base : String) (rates : RateTable) :
    (∀ code bal, (code, bal) ∈ wallets → code = base →
      WalletLine.valued code bal bal ∈ portfolioBreakdown wallets base rates) ∧
    (∀ code bal, (code, bal) ∈ wallets → code ≠ base →
      lookupKey (code ++ "_" ++ base) (exchangeRatesOf rates) = none →
      WalletLine.notFound code bal ∈ portfolioBreakdown wallets base rates) ∧
    (portfolioBreakdown wallets base rates).length = wallets.length ∧
    portfolioTotal wallets base rates =
      ((portfolioBreakdown wallets base rates).filterMap resolvedValue).sum := by
  refine ⟨?_, ?_, ?_, ?_⟩
  · intro code bal hmem heq
    have hmap := List.mem_map_of_mem
      (fun w : String × ℚ => valueWallet (exchangeRatesOf rates) base w.1 w.2)
      hmem
    have hval : valueWallet (exchangeRatesOf rates) base code bal =
        .valued code bal bal := by
      unfold valueWallet
      simp [heq]
    rw [← hval]
    exact hmap
  · intro code bal hmem hne hr
    have hmap := List.mem_map_of_mem
      (fun w : String × ℚ => valueWallet (exchangeRatesOf rates) base w.1 w.2)
      hmem
    have hval : valueWallet (exchangeRatesOf rates) base code bal =
        .notFound code bal := by
      unfold valueWallet
      simp [hne, hr]
    rw [← hval]
    exact hmap
  · unfold portfolioBreakdown
    exact List.length_map _ _
  · unfold portfolioTotal portfolioBreakdown
    rw [foldl_add_eq_sum_map, ← sum_contribution_eq_sum_resolved, List.map_map,
      zero_add]
    rfl

/-- Witness for C5: the spec's example — portfolio `{USD: 100, BTC: 0.01}`,
base USD: the USD wallet always prices 1:1; with no BTC rate the BTC row is
"rate not found" and the total is the sum over the rows that priced. -/
theorem valuation_total_sums_resolved_wit :
    WalletLine.valued "USD" 100 100 ∈
      portfolioBreakdown [("USD", 100), ("BTC", 1/100)] "USD"
        [("BTC_USD", ⟨50000, "2024"⟩)] ∧
    WalletLine.notFound "BTC" (1/100) ∈
      portfolioBreakdown [("USD", 100), ("BTC", 1/100)] "USD"
        [("ETH_USD", ⟨3000, "2024"⟩)] ∧
    portfolioTotal [("USD", 100), ("BTC", 1/100)] "USD"
        [("ETH_USD", ⟨3000, "2024"⟩)] =
      ((portfolioBreakdown [("USD", 100), ("BTC", 1/100)] "USD"
        [("ETH_USD", ⟨3000, "2024"⟩)]).filterMap resolvedValue).sum := by
  refine ⟨?_, ?_, ?_⟩
  · exact (valuation_total_sums_resolved [("USD", 100), ("BTC", 1/100)] "USD"
      [("BTC_USD", ⟨50000, "2024"⟩)]).1 "USD" 100 (by norm_num) rfl
  · exact (valuation_total_sums_resolved [("USD", 100), ("BTC", 1/100)] "USD"
      [("ETH_USD", ⟨3000, "2024"⟩)]).2.1 "BTC" (1/100) (by norm_num)
      (by decide) rfl
  · exact (valuation_total_sums_resolved [("USD", 100), ("BTC", 1/100)] "USD"
      [("ETH_USD", ⟨3000, "2024"⟩)]).2.2.2

lemma registry_entry_norm {k : String} {c : Currency}
    (h : lookupKey k currencyRegistry = some c) :
    c.code = k ∧ pyStrip (pyUpper k) = k := by
  have hmem := lookupKey_eq_some_mem h
  simp only [currencyRegistry, List.mem_cons, List.not_mem_nil, or_false,
    Prod.mk.injEq] at hmem
  rcases hmem with ⟨hk, hc⟩ | ⟨hk, hc⟩ | ⟨hk, hc⟩ | ⟨hk, hc⟩ | ⟨hk, hc⟩ |
    ⟨hk, hc⟩ | ⟨hk, hc⟩ | ⟨hk, hc⟩ | ⟨hk, hc⟩ <;>
    (subst hk; subst hc; exact ⟨rfl, by decide⟩)

/-- C6: `get_currency` normalizes its argument by uppercasing and trimming;
a successful lookup returns a currency whose `code` equals the normalized
input, looking that `code` up again returns the same object (idempotence),
and a normalized code absent from the catalog fails with
`CurrencyNotFoundError`. -/
theorem get_currency_normalizes_and_idempotent :
    (∀ code c, get_currency code = .ok c → c.code = pyStrip (pyUpper code)) ∧
    (∀ code c, get_currency code = .ok c → get_currency c.code = .ok c) ∧
    (∀ code, lookupKey (pyStrip (pyUpper code)) currencyRegistry = none →
      get_currency code = .error (.currencyNotFound (pyStrip (pyUpper code)))) := by
  refine ⟨?_, ?_, ?_⟩
  · intro code c h
    unfold get_currency at h
    cases hl : lookupKey (pyStrip (pyUpper code)) currencyRegistry with
    | none => simp [hl] at h
    | some c2 =>
        simp [hl] at h
        subst h
        exact (registry_entry_norm hl).1
  · intro code c h
    unfold get_currency at h ⊢
    cases hl : lookupKey (pyStrip (pyUpper code)) currencyRegistry with
    | none => simp [hl] at h
    | some c2 =>
        simp [hl] at h
        subst h
        obtain ⟨hcode, hnorm⟩ := registry_entry_norm hl
        rw [hcode, hnorm]
        simp [hl]
  · intro code hl
    unfold get_currency
    simp [hl]

/-- Witness for C6, at the catalog entry USD and the absent code "xyz":
`get_currency " usd "` normalizes to "USD" and returns the USD object, the
returned code round-trips to the same object, and `get_currency "xyz"`
fails with `CurrencyNotFoundError` for "XYZ". -/
theorem get_currency_normalizes_and_idempotent_wit :
    (⟨"US Dollar", "USD", .fiat "United States"⟩ : Currency).code =
      pyStrip (pyUpper " usd ") ∧
    get_currency
        (⟨"US Dollar", "USD", .fiat "United States"⟩ : Currency).code =
      .ok ⟨"US Dollar", "USD", .fiat "United States"⟩ ∧
    get_currency "xyz" = .error (.currencyNotFound "XYZ") := by
  refine ⟨?_, ?_, ?_⟩
  · exact get_currency_normalizes_and_idempotent.1 " usd "
      ⟨"US Dollar", "USD", .fiat "United States"⟩ rfl
  · exact get_currency_normalizes_and_idempotent.2.1 " usd "
      ⟨"US Dollar", "USD", .fiat "United States"⟩ rfl
  · exact get_currency_normalizes_and_idempotent.2.2 "xyz" rfl

/-- C7: construction of a currency succeeds exactly when the code has length
in [2,5], is uppercase in the Python sense, contains no space, and the name
is non-empty after trimming (otherwise it fails with the validation error);
in particular `FiatCurrency("", "USD", "US")` fails on the empty name,
`FiatCurrency("Dollar", "usd", "US")` fails on the lowercase code, and
construction with valid arguments succeeds. -/
theorem currency_validation_iff :
    (∀ name code kind,
      Currency.init name code kind = .ok ⟨name, code, kind⟩ ↔
        (2 ≤ code.length ∧ code.length ≤ 5 ∧ isupperPy code = true ∧
          (' ' : Char) ∉ code.data ∧ pyStrip name ≠ "")) ∧
    FiatCurrency "" "USD" "US" =
      .error (.invalidCurrency "name must be non-empty") ∧
    FiatCurrency "Dollar" "usd" "US" =
      .error (.invalidCurrency "code must be uppercase") ∧
    FiatCurrency "US Dollar" "USD" "United States" =
      .ok ⟨"US Dollar", "USD", .fiat "United States"⟩ := by
  refine ⟨?_, rfl, rfl, rfl⟩
  intro name code kind
  unfold Currency.init validate_code validate_name
  split_ifs with h1 h2 h3 h4 <;>
    simp_all [Bind.bind, Except.bind, Pure.pure, Except.pure]

/-- Witness for C7: the validity conditions instantiated at
("British Pound", "GBP") make construction succeed. -/
theorem currency_validation_iff_wit :
    Currency.init "British Pound" "GBP" (.fiat "United Kingdom") =
      .ok ⟨"British Pound", "GBP", .fiat "United Kingdom"⟩ :=
  (currency_validation_iff.1 "British Pound" "GBP"
    (.fiat "United Kingdom")).mpr (by decide)

/-- C8: a buy or sell command that fails — non-positive amount, amount not a
number, unknown currency code, missing portfolio/wallet, or a sell
exceeding the balance — returns the loaded portfolios store unchanged (no
failure path reaches `save_portfolios`); and neither command ever drives a
balance negative: if every stored balance is non-negative before the
command, every stored balance is non-negative after it. -/
theorem trade_failure_preserves_store (portfolios : List Portfolio)
    (logged_in : Bool) (uid : ℕ) (currency_arg : String)
    (amount_arg : Option ℚ) (rates : RateTable) :
    (∀ e, (buy_command portfolios logged_in uid currency_arg amount_arg
        rates).2 = .error e →
      (buy_command portfolios logged_in uid currency_arg amount_arg
        rates).1 = portfolios) ∧
    (∀ e, (sell_command portfolios logged_in uid currency_arg amount_arg
        rates).2 = .error e →
      (sell_command portfolios logged_in uid currency_arg amount_arg
        rates).1 = portfolios) ∧
    ((∀ p ∈ portfolios, ∀ kv ∈ p.wallets, (0 : ℚ) ≤ kv.2) →
      ∀ p ∈ (buy_command portfolios logged_in uid currency_arg amount_arg
        rates).1, ∀ kv ∈ p.wallets, (0 : ℚ) ≤ kv.2) ∧
    ((∀ p ∈ portfolios, ∀ kv ∈ p.wallets, (0 : ℚ) ≤ kv.2) →
      ∀ p ∈ (sell_command portfolios logged_in uid currency_arg amount_arg
        rates).1, ∀ kv ∈ p.wallets, (0 : ℚ) ≤ kv.2) := by
  refine ⟨?_, ?_, ?_, ?_⟩
  · intro e h
    unfold buy_command at h ⊢
    repeat' split at h
    all_goals simp_all [Wallet.deposit]
    all_goals try (split <;> rfl)
    all_goals rw [if_neg (not_le.mpr (by assumption))] at h
    all_goals simp_all
  · intro e h
    unfold sell_command at h ⊢
    repeat' split at h
    all_goals simp_all [Wallet.withdraw]
    all_goals try (split <;> rfl)
    rename_i amount x portfolio hlog hpos hfind
    rw [if_neg (not_le.mpr hpos)]
    cases hw : lookupKey (pyStrip (pyUpper currency_arg)) portfolio.wallets with
    | none => simp [hw]
    | some old_balance =>
        simp only [hw] at h
        simp only [hw]
        rw [if_neg (not_le.mpr hpos)] at h
        by_cases hlt : old_balance < amount
        · rw [if_pos hlt] at h ⊢
          try rfl
        · rw [if_neg hlt] at h
          simp at h
  · intro hnn
    unfold buy_command
    repeat' split
    all_goals try exact hnn
    rename_i amount hlog hpos x portfolio hfind
    unfold find_portfolio_by_user_id at hfind
    simp only [Wallet.deposit, hpos, if_false, ite_false]
    intro p hp kv hkv
    rcases mem_replacePortfolio hp with hpnew | hpold
    · subst hpnew
      rcases mem_setWallet hkv with hkw | hkw
      · subst hkw
        have hold : (0 : ℚ) ≤
            (lookupKey (pyStrip (pyUpper currency_arg))
              portfolio.wallets).getD 0 :=
          lookupKey_getD_nonneg
            (hnn portfolio (List.mem_of_find?_eq_some hfind))
        have hamt : (0 : ℚ) < amount := lt_of_not_le hpos
        dsimp only
        linarith
      · exact hnn portfolio (List.mem_of_find?_eq_some hfind) kv hkw
    · exact hnn p hpold kv hkv
  · intro hnn
    unfold sell_command
    repeat' split
    all_goals try exact hnn
    rename_i amount hlog hpos x portfolio hfind
    unfold find_portfolio_by_user_id at hfind
    cases hw : lookupKey (pyStrip (pyUpper currency_arg)) portfolio.wallets with
    | none =>
        simp only [hw]
        exact hnn
    | some old_balance =>
        have hob : (0 : ℚ) ≤ old_balance := by
          have h2 := hnn portfolio (List.mem_of_find?_eq_some hfind) _
            (lookupKey_eq_some_mem hw)
          simpa using h2
        simp only [hw, Wallet.withdraw, hpos, if_false, ite_false]
        by_cases hlt : old_balance < amount
        · simp only [hlt, if_true, ite_true]
          exact hnn
        · simp only [hlt, if_false, ite_false]
          intro p hp kv hkv
          rcases mem_replacePortfolio hp with hpnew | hpold
          · subst hpnew
            rcases mem_setWallet hkv with hkw | hkw
            · subst hkw
              dsimp only
              linarith [le_of_not_lt hlt]
            · exact hnn portfolio (List.mem_of_find?_eq_some hfind) kv hkw
          · exact hnn p hpold kv hkv

/-- Witness for C8: a logged-in user with one USD wallet of balance 50 —
selling 100 USD fails with `InsufficientFunds` and the store is returned
unchanged; buying a negative amount fails and the store is returned
unchanged; and the store after a failed sell still has only non-negative
balances. -/
theorem trade_failure_preserves_store_wit :
    (sell_command [⟨1, [("USD", 50)]⟩] true 1 "USD" (some 100) []).1 =
      [⟨1, [("USD", 50)]⟩] ∧
    (buy_command [⟨1, [("USD", 50)]⟩] true 1 "USD" (some (-1)) []).1 =
      [⟨1, [("USD", 50)]⟩] ∧
    ∀ p ∈ (sell_command [⟨1, [("USD", 50)]⟩] true 1 "USD" (some 100) []).1,
      ∀ kv ∈ p.wallets, (0 : ℚ) ≤ kv.2 := by
  refine ⟨?_, ?_, ?_⟩
  · exact (trade_failure_preserves_store [⟨1, [("USD", 50)]⟩] true 1 "USD"
      (some 100) []).2.1 .insufficientFunds (by rfl)
  · exact (trade_failure_preserves_store [⟨1, [("USD", 50)]⟩] true 1 "USD"
      (some (-1)) []).1 .nonPositiveAmount (by rfl)
  · exact (trade_failure_preserves_store [⟨1, [("USD", 50)]⟩] true 1 "USD"
      (some 100) []).2.2.2 (by norm_num)

/-- C9: `get_display_info` renders
`[CRYPTO] CODE — Name (Algo: X, MCAP: Y)` for every crypto currency, where
Y is scientific notation with 2 fraction digits exactly when the market cap
is strictly above 1e9 and a comma-grouped decimal with 2 fraction digits
otherwise, and `[FIAT] CODE — Name (Issuing: Region)` for every fiat
currency — checked on the general templates and on concrete values:
BTC (1.12e12 → "1.12e+12"), LTC (5.8e9 → "5.80e+09"), a market cap of
exactly 1e9 (grouped, not scientific), and USD. -/
theorem display_info_templates :
    (∀ name code algo (mcap : ℚ),
      get_display_info ⟨name, code, .crypto algo mcap⟩ =
        "[CRYPTO] " ++ code ++ " — " ++ name ++ " (Algo: " ++ algo ++
          ", MCAP: " ++
          (if mcap > 1000000000 then sciFormat2 mcap else groupedFormat2 mcap)
          ++ ")") ∧
    (∀ name code issuing,
      get_display_info ⟨name, code, .fiat issuing⟩ =
        "[FIAT] " ++ code ++ " — " ++ name ++ " (Issuing: " ++ issuing ++ ")") ∧
    get_display_info ⟨"Bitcoin", "BTC", .crypto "SHA-256" 1120000000000⟩ =
      "[CRYPTO] BTC — Bitcoin (Algo: SHA-256, MCAP: 1.12e+12)" ∧
    get_display_info ⟨"Litecoin", "LTC", .crypto "Scrypt" 5800000000⟩ =
      "[CRYPTO] LTC — Litecoin (Algo: Scrypt, MCAP: 5.80e+09)" ∧
    get_display_info ⟨"Testcoin", "TST", .crypto "Algo" 1000000000⟩ =
      "[CRYPTO] TST — Testcoin (Algo: Algo, MCAP: 1,000,000,000.00)" ∧
    get_display_info ⟨"US Dollar", "USD", .fiat "United States"⟩ =
      "[FIAT] USD — US Dollar (Issuing: United States)" := by
  refine ⟨fun _ _ _ _ => rfl, fun _ _ _ => rfl, ?_, ?_, ?_, rfl⟩
  · have hlog : Int.log 10 ((1120000000000 : ℚ)) = 12 := by
      have h : Nat.log 10 1120000000000 = 12 :=
        Nat.log_eq_of_pow_le_of_lt_pow (by norm_num) (by norm_num)
      rw [Int.log_ofNat, h]
      norm_num
    have harith : (1120000000000 : ℚ) / (10 : ℚ) ^ (12 : ℤ) * 100 = 112 := by
      norm_num
    have hrd : round ((112 : ℚ)) = 112 := by norm_num
    simp only [get_display_info]
    rw [if_pos (show (1120000000000 : ℚ) > 1000000000 by norm_num)]
    unfold sciFormat2
    rw [if_neg (show ¬ (1120000000000 : ℚ) ≤ 0 by norm_num), hlog, harith, hrd]
    decide
  · have hlog : Int.log 10 ((5800000000 : ℚ)) = 9 := by
      have h : Nat.log 10 5800000000 = 9 :=
        Nat.log_eq_of_pow_le_of_lt_pow (by norm_num) (by norm_num)
      rw [Int.log_ofNat, h]
      norm_num
    have harith : (5800000000 : ℚ) / (10 : ℚ) ^ (9 : ℤ) * 100 = 580 := by
      norm_num
    have hrd : round ((580 : ℚ)) = 580 := by norm_num
    simp only [get_display_info]
    rw [if_pos (show (5800000000 : ℚ) > 1000000000 by norm_num)]
    unfold sciFormat2
    rw [if_neg (show ¬ (5800000000 : ℚ) ≤ 0 by norm_num), hlog, harith, hrd]
    decide
  · have harith : (1000000000 : ℚ) * 100 = 100000000000 := by norm_num
    have hrd : round ((100000000000 : ℚ)) = 100000000000 := by norm_num
    simp only [get_display_info]
    rw [if_neg (show ¬ (1000000000 : ℚ) > 1000000000 by norm_num)]
    unfold groupedFormat2
    rw [harith, hrd]
    decide

/-- Witness for C9: the fiat template instantiated at the Euro. -/
theorem display_info_templates_wit :
    get_display_info ⟨"Euro", "EUR", .fiat "Eurozone"⟩ =
      "[FIAT] " ++ "EUR" ++ " — " ++ "Euro" ++ " (Issuing: " ++ "Eurozone"
        ++ ")" :=
  display_info_templates.2.1 "Euro" "EUR" "Eurozone"

lemma bridgeStep_not_direct (rates : RateTable) (f t : String) (r : ℚ)
    (rev : Option ℚ) : bridgeStep rates f t ≠ .found r .direct rev := by
  intro h
  unfold bridgeStep at h
  repeat' split at h
  all_goals simp_all

lemma bridgeStep_not_inverted (rates : RateTable) (f t : String) (r : ℚ)
    (rev : Option ℚ) :
    bridgeStep rates f t ≠ .found r .invertedReverse rev := by
  intro h
  unfold bridgeStep at h
  repeat' split at h
  all_goals simp_all

lemma reverseStep_not_direct (rates : RateTable) (f t : String) (r : ℚ)
    (rev : Option ℚ) : reverseStep rates f t ≠ .found r .direct rev := by
  intro h
  unfold reverseStep at h
  cases hl : lookupKey (t ++ "_" ++ f) rates with
  | none =>
      simp only [hl] at h
      exact bridgeStep_not_direct rates f t r rev h
  | some e =>
      by_cases hm : (t ++ "_" ++ f) ∈ metadataKeys
      · simp only [hl, hm, if_true, ite_true] at h
        exact bridgeStep_not_direct rates f t r rev h
      · by_cases hz : e.rate = 0
        · simp [hl, hm, hz] at h
        · simp [hl, hm, hz] at h

lemma reverseStep_metadata_not_inverted (rates : RateTable) (f t : String)
    (r : ℚ) (rev : Option ℚ) (hmeta : (t ++ "_" ++ f) ∈ metadataKeys) :
    reverseStep rates f t ≠ .found r .invertedReverse rev := by
  intro h
  unfold reverseStep at h
  cases hl : lookupKey (t ++ "_" ++ f) rates with
  | none =>
      simp only [hl] at h
      exact bridgeStep_not_inverted rates f t r rev h
  | some e =>
      simp only [hl, hmeta, if_true, ite_true] at h
      exact bridgeStep_not_inverted rates f t r rev h

lemma lookup_exchangeRates_metadata (k : String) (hk : k ∈ metadataKeys) :
    ∀ rates : RateTable, lookupKey k (exchangeRatesOf rates) = none := by
  intro rates
  induction rates with
  | nil => rfl
  | cons kv rest ih =>
      unfold exchangeRatesOf at ih ⊢
      by_cases hm : kv.1 ∈ metadataKeys
      · simpa [List.filter_cons, hm] using ih
      · have hne : kv.1 ≠ k := fun he => hm (he ▸ hk)
        simpa [List.filter_cons, hm, lookupKey, hne] using ih

/-- C10: the keys "source" and "last_refresh" of the loaded rates mapping
are metadata, never currency pairs: the `exchange_rates` table built by
valuation and by the buy/sell estimates contains neither; the direct and
reverse steps of rate resolution never return a quote for them; and the
`RateUnavailable` diagnostic list of known pair keys is exactly the table's
keys with both of them removed. -/
theorem metadata_keys_never_pairs :
    (∀ (rates : RateTable) (k : String), k ∈ metadataKeys →
      lookupKey k (exchangeRatesOf rates) = none) ∧
    (∀ (rates : RateTable) (f t : String) (r : ℚ) (rev : Option ℚ),
      (f ++ "_" ++ t) ∈ metadataKeys →
      resolveRate rates f t ≠ .found r .direct rev) ∧
    (∀ (rates : RateTable) (f t : String) (r : ℚ) (rev : Option ℚ),
      (t ++ "_" ++ f) ∈ metadataKeys →
      resolveRate rates f t ≠ .found r .invertedReverse rev) ∧
    (∀ (rates : RateTable) (k : String),
      k ∈ knownPairKeys rates ↔
        (k ∈ rates.map Prod.fst ∧ k ∉ metadataKeys)) := by
  refine ⟨?_, ?_, ?_, ?_⟩
  · intro rates k hk
    exact lookup_exchangeRates_metadata k hk rates
  · intro rates f t r rev hmeta h
    unfold resolveRate at h
    cases hl : lookupKey (f ++ "_" ++ t) rates with
    | none =>
        simp only [hl] at h
        exact reverseStep_not_direct rates f t r rev h
    | some e =>
        simp only [hl, hmeta, if_true, ite_true] at h
        exact reverseStep_not_direct rates f t r rev h
  · intro rates f t r rev hmeta h
    unfold resolveRate at h
    cases hl : lookupKey (f ++ "_" ++ t) rates with
    | none =>
        simp only [hl] at h
        exact reverseStep_metadata_not_inverted rates f t r rev hmeta h
    | some e =>
        by_cases hm : (f ++ "_" ++ t) ∈ metadataKeys
        · simp only [hl, hm, if_true, ite_true] at h
          exact reverseStep_metadata_not_inverted rates f t r rev hmeta h
        · simp [hl, hm] at h
  · intro rates k
    unfold knownPairKeys
    simp [List.mem_filter]

/-- Witness for C10: in a table with a "source" entry the filtered
`exchange_rates` has no "source" key; the pair ("last", "refresh"), whose
direct key spells "last_refresh", is never served a direct quote and its
mirror never an inverted one; and the diagnostic list membership of
"EUR_USD" holds exactly because it is a table key and not metadata. -/
theorem metadata_keys_never_pairs_wit :
    lookupKey "source"
      (exchangeRatesOf [("source", ⟨1, "api"⟩), ("EUR_USD", ⟨2, "2024"⟩)]) =
      none ∧
    resolveRate [("last_refresh", ⟨5, "2024"⟩)] "last" "refresh" ≠
      .found 5 .direct (some (1/5)) ∧
    resolveRate [("last_refresh", ⟨5, "2024"⟩)] "refresh" "last" ≠
      .found (1/5) .invertedReverse (some 5) ∧
    ("EUR_USD" ∈
        knownPairKeys [("source", ⟨1, "api"⟩), ("EUR_USD", ⟨2, "2024"⟩)] ↔
      ("EUR_USD" ∈
          ([("source", ⟨1, "api"⟩), ("EUR_USD", ⟨2, "2024"⟩)] :
            RateTable).map Prod.fst ∧
        "EUR_USD" ∉ metadataKeys)) := by
  refine ⟨?_, ?_, ?_, ?_⟩
  · exact metadata_keys_never_pairs.1 _ "source" (by decide)
  · exact metadata_keys_never_pairs.2.1 _ "last" "refresh" 5 (some (1/5))
      (by decide)
  · exact metadata_keys_never_pairs.2.2.1 _ "refresh" "last" (1/5) (some 5)
      (by decide)
  · exact metadata_keys_never_pairs.2.2.2 _ "EUR_USD"

end ValutaTrade
